import Mathlib

/-!
Verification of the lineup-generation core of `nfl-lineup-generator`.

The embedding models the tabular data of `combiner/combine_nfl_dfs.py` and
`lineup_generator.py` as lists of records.  Per the external-interface
contract, the merged pool `combo` (already filtered to rows with a non-null
salary) and the DraftKings defense table `dk_def` are the inputs; every
numeric column is modelled as an exact rational.  The only place where
IEEE-float behaviour is observable in the source is division by zero in the
quarterback rate columns, which pandas maps to `inf`/`-inf`/`NaN`; the
`PFloat` type below models exactly that, keeping finite values exact.

Rational arithmetic is implemented on top of `mkRat` / `Rat.divInt` and
integer arithmetic (the core `Rat.add` etc. are `@[irreducible]`, which
blocks kernel evaluation); lemmas `qadd_eq`, `qsub_eq`, `qmul_eq`, `qdiv_eq`
show these agree with the field operations of `ℚ`.
-/

/-- Exact rational addition, kernel-computable. Agrees with `+` (`qadd_eq`). -/
def qadd (a b : Rat) : Rat := mkRat (a.num * (b.den : Int) + b.num * (a.den : Int)) (a.den * b.den)

/-- Exact rational subtraction, kernel-computable. Agrees with `-` (`qsub_eq`). -/
def qsub (a b : Rat) : Rat := mkRat (a.num * (b.den : Int) - b.num * (a.den : Int)) (a.den * b.den)

/-- Exact rational multiplication, kernel-computable. Agrees with `*` (`qmul_eq`). -/
def qmul (a b : Rat) : Rat := mkRat (a.num * b.num) (a.den * b.den)

/-- Exact rational division, kernel-computable. Agrees with `/` (`qdiv_eq`);
in particular `qdiv a 0 = 0`. -/
def qdiv (a b : Rat) : Rat := Rat.divInt (a.num * (b.den : Int)) ((a.den : Int) * b.num)

/-- The result of a pandas float column division: a finite (exactly
represented) value, or `inf` / `-inf` / `NaN` on a zero denominator. -/
inductive PFloat where
  | finite (q : Rat)
  | posInf
  | negInf
  | nan
deriving Repr, DecidableEq

/-- Pandas elementwise division `a / b`: finite exact quotient when `b ≠ 0`,
otherwise `inf`, `-inf` or `NaN` according to the sign of `a` (IEEE-754,
which is what numpy produces for `x / 0`). -/
def pdiv (a b : Rat) : PFloat :=
  if b ≠ 0 then .finite (qdiv a b)
  else if 0 < a then .posInf
  else if a < 0 then .negInf
  else .nan

/-- Pandas comparison `x > c` of a float column entry with a finite scalar:
`NaN > c` is false, `inf > c` is true, `-inf > c` is false. -/
def PFloat.gtR : PFloat → Rat → Bool
  | .finite q, c => decide (c < q)
  | .posInf, _ => true
  | .negInf, _ => false
  | .nan, _ => false

/-- Pandas comparison `x >= t` of a rational column entry against an optional
scalar threshold; `none` models a `NaN` threshold (empty-column quantile),
and any comparison with `NaN` is false. -/
def ratGeOpt (x : Rat) (t : Option Rat) : Bool :=
  match t with
  | some v => decide (v ≤ x)
  | none => false

/-- Pandas `Series.quantile(q)` with the default linear interpolation: on a sorted
copy `s` of the `n` column values, the value at fractional position
`h = q * (n - 1)`, i.e. `s[i] + (h - i) * (s[i+1] - s[i])` with `i = ⌊h⌋`.
Returns `none` (pandas: `NaN`) on an empty column. -/
def quantile (q : Rat) (l : List Rat) : Option Rat :=
  if l.isEmpty then none
  else
    let s := l.insertionSort (· ≤ ·)
    let n := l.length
    let h : Rat := qmul q (qsub (n : Rat) 1)
    let i : Nat := h.floor.toNat
    let lo := s.getD i 0
    let hi := s.getD (i + 1) lo
    some (qadd lo (qmul (qsub h (i : Rat)) (qsub hi lo)))

/-- A row of the merged offense pool `combo` (post `Salary.notnull()` filter):
the columns of `pd.merge_ordered(stats, dk_players, on='Name')` that the
lineup code reads.  Stat columns are numeric (the scraper applies
`fillna(0)` and `to_numeric`). -/
structure Row where
  Name : String
  FantPos : String
  Salary : Rat
  VBD : Rat
  Tgt : Rat
  Att : Rat
  Pass_Cmp : Rat
  Pass_Att : Rat
  Pass_Yds : Rat
deriving Repr, DecidableEq

instance : Inhabited Row := ⟨⟨"", "", 0, 0, 0, 0, 0, 0, 0⟩⟩

/-- A row of `dk_def = dk[dk['Position'] == 'DST']`. -/
structure DefRow where
  Name : String
  AvgPointsPerGame : Rat
deriving Repr, DecidableEq

instance : Inhabited DefRow := ⟨⟨"", 0⟩⟩

/-- Source: `qb_raw = combo[combo['FantPos'] == 'QB']`. -/
def qb_raw (combo : List Row) : List Row := combo.filter (fun r => r.FantPos == "QB")

/-- Source: `wr_raw = combo[combo['FantPos'] == 'WR']`. -/
def wr_raw (combo : List Row) : List Row := combo.filter (fun r => r.FantPos == "WR")

/-- Source: `rb_raw = combo[combo['FantPos'] == 'RB']`. -/
def rb_raw (combo : List Row) : List Row := combo.filter (fun r => r.FantPos == "RB")

/-- Source: `te_raw = combo[combo['FantPos'] == 'TE']`. -/
def te_raw (combo : List Row) : List Row := combo.filter (fun r => r.FantPos == "TE")

/-- Source: `flex_raw = combo[(FantPos == 'RB') | (FantPos == 'WR') | (FantPos == 'TE')]`. -/
def flex_raw (combo : List Row) : List Row :=
  combo.filter (fun r => r.FantPos == "RB" || r.FantPos == "WR" || r.FantPos == "TE")

/-- Source: `wr_targets = wr_raw.Tgt.quantile(q=.75)`. -/
def wr_targets (combo : List Row) : Option Rat :=
  quantile (mkRat 3 4) ((wr_raw combo).map (fun r => r.Tgt))

/-- Rows of `combo` paired with their row index (the pandas row label that
boolean masks align on; `merge_ordered` yields the default RangeIndex, and
the positional sub-frames keep their parent labels). -/
def enumRows : Nat → List Row → List (Nat × Row)
  | _, [] => []
  | i, r :: l => (i, r) :: enumRows (i + 1) l

/-- The frame `wr_raw` with its row labels, for the index-aligned `combo['VBD']` mask. -/
def wr_rawIdx (combo : List Row) : List (Nat × Row) :=
  (enumRows 0 combo).filter (fun p => p.2.FantPos == "WR")

/-- The entry of the mask `combo['VBD'] > 2` at row label `i`. -/
def comboVbdMask (combo : List Row) (i : Nat) : Bool :=
  decide ((2 : Rat) < (combo.getD i default).VBD)

/-- Source: `wr = wr_raw[(wr_raw['Tgt'] >= wr_targets) & (combo['VBD'] > 2)]`, exactly
as written: the `VBD` mask is taken from the full merged frame and aligned
with `wr_raw` by row label. -/
def wr (combo : List Row) : List Row :=
  ((wr_rawIdx combo).filter
      (fun p => ratGeOpt p.2.Tgt (wr_targets combo) && comboVbdMask combo p.1)).map
    (fun p => p.2)

/-- The per-pool form of the WR filter (the shape used for RB and TE):
`wr_raw[(wr_raw['Tgt'] >= wr_targets) & (wr_raw['VBD'] > 2)]`. -/
def wr_perPool (combo : List Row) : List Row :=
  (wr_raw combo).filter
    (fun r => ratGeOpt r.Tgt (wr_targets combo) && decide ((2 : Rat) < r.VBD))

/-- Source: `rb_attempts = rb_raw.Att.quantile(q=.75)`. -/
def rb_attempts (combo : List Row) : Option Rat :=
  quantile (mkRat 3 4) ((rb_raw combo).map (fun r => r.Att))

/-- Source: `rb = rb_raw[(rb_raw['Att'] >= rb_attempts) & (rb_raw['VBD'] > 1.5)]`. -/
def rb (combo : List Row) : List Row :=
  (rb_raw combo).filter
    (fun r => ratGeOpt r.Att (rb_attempts combo) && decide (mkRat 3 2 < r.VBD))

/-- Source: `cmp_per = qb_raw['Pass_Cmp']/qb_raw['Pass_Att']`, per row. -/
def cmp_per (r : Row) : PFloat := pdiv r.Pass_Cmp r.Pass_Att

/-- Source: `pypa = qb_raw['Pass_Yds']/qb_raw['Pass_Att']`, per row. -/
def pypa (r : Row) : PFloat := pdiv r.Pass_Yds r.Pass_Att

/-- Source: `qb = qb_raw[(cmp_per > .6) & (pypa > 5) & (qb_raw['VBD'] > 2)]`
(`.6` is modelled as the exact rational `3/5`). -/
def qb (combo : List Row) : List Row :=
  (qb_raw combo).filter
    (fun r => (cmp_per r).gtR (mkRat 3 5) && (pypa r).gtR 5 && decide ((2 : Rat) < r.VBD))

/-- Source: `te_targets = wr_raw.Tgt.quantile(q=.75)` — recomputed over the WR rows,
exactly as the source does. -/
def te_targets (combo : List Row) : Option Rat :=
  quantile (mkRat 3 4) ((wr_raw combo).map (fun r => r.Tgt))

/-- Source: `te = te_raw[(te_raw['Tgt'] >= te_targets) & (te_raw['VBD'] > 2)]`. -/
def te (combo : List Row) : List Row :=
  (te_raw combo).filter
    (fun r => ratGeOpt r.Tgt (te_targets combo) && decide ((2 : Rat) < r.VBD))

/-- Source: `flex_targets = flex_raw.Tgt.quantile(q=.75)`. -/
def flex_targets (combo : List Row) : Option Rat :=
  quantile (mkRat 3 4) ((flex_raw combo).map (fun r => r.Tgt))

/-- Source: `flex_attempts = flex_raw.Att.quantile(q=.75)`. -/
def flex_attempts (combo : List Row) : Option Rat :=
  quantile (mkRat 3 4) ((flex_raw combo).map (fun r => r.Att))

/-- Source: `flex = flex_raw[((Tgt >= flex_targets) | (Att >= flex_attempts)) & (VBD > 2)]`. -/
def flex (combo : List Row) : List Row :=
  (flex_raw combo).filter
    (fun r =>
      (ratGeOpt r.Tgt (flex_targets combo) || ratGeOpt r.Att (flex_attempts combo)) &&
        decide ((2 : Rat) < r.VBD))

/-- Source: `d_arg = dk_def.AvgPointsPerGame.quantile(q=.25)`. -/
def d_arg (dk_def : List DefRow) : Option Rat :=
  quantile (mkRat 1 4) (dk_def.map (fun r => r.AvgPointsPerGame))

/-- Source: `defense = dk_def[dk_def['AvgPointsPerGame'] >= d_arg]`. -/
def defense (dk_def : List DefRow) : List DefRow :=
  dk_def.filter (fun r => ratGeOpt r.AvgPointsPerGame (d_arg dk_def))

/-- A Python exception escaping the script: `random.randint` raises
`ValueError` on an empty range, `DataFrame.iloc` raises `IndexError` when
the positional index is out of bounds. -/
inductive PyErr where
  | valueError (msg : String)
  | indexError (msg : String)
deriving Repr, DecidableEq

/-- Python `random.randint(lo, hi)`: a uniform draw from the closed range
`[lo, hi]`.  The randomness is supplied as the seed `r`; Python raises
`ValueError` when the range is empty (`hi < lo`), which is what
`randint(0, len(pool)-1)` does on an empty pool. -/
def randint (lo hi : Int) (r : Nat) : Except PyErr Int :=
  if hi < lo then .error (.valueError "empty range for randrange")
  else .ok (lo + (r % (hi - lo + 1).toNat))

/-- Pandas `df.iloc[k]`: positional row access, with Python-style negative
wrap-around, raising `IndexError` out of bounds. -/
def iloc {α : Type} [Inhabited α] (l : List α) (k : Int) : Except PyErr α :=
  let j : Int := if k < 0 then k + l.length else k
  if 0 ≤ j ∧ j.toNat < l.length then .ok (l.getD j.toNat default)
  else .error (.indexError "single positional indexer is out-of-bounds")

/-- Pandas `df.sample(frac=1)`: a shuffled copy of the frame.  The permutation is
supplied from outside as a list `p` of positions (row `i` of the result is
row `p[i]` of the input); it is a genuine shuffle exactly when `p` is a
permutation of `range len`, which is the `IsShuffle` hypothesis below. -/
def sampleFrac1 {α : Type} (p : List Nat) (l : List α) : List α :=
  p.filterMap (fun i => l.get? i)

/-- The index list `p` is a permutation of the positions of `l`, i.e. the
draw `sample(frac=1)` it encodes is a real shuffle. -/
def IsShuffle {α : Type} (p : List Nat) (l : List α) : Prop :=
  p.Perm (List.range l.length)

/-- The random state consumed by one generation run: one seed per
`randint` call (in program order) and one permutation per `sample(frac=1)`
call. -/
structure Entropy where
  qbr : Nat
  rbr : Nat
  rbr2 : Nat
  wrr : Nat
  wrr2 : Nat
  wrr3 : Nat
  ter : Nat
  flexr : Nat
  defr : Nat
  rbp1 : List Nat
  rbp2 : List Nat
  wrp1 : List Nat
  wrp2 : List Nat
  wrp3 : List Nat
deriving Repr, DecidableEq

/-- The 9-slot lineup built by `team_raw` / `lineup`: QB, RB1, RB2, WR1,
WR2, WR3, TE, FLEX, DST. -/
structure Team where
  qbP : Row
  rb1P : Row
  rb2P : Row
  wr1P : Row
  wr2P : Row
  wr3P : Row
  teP : Row
  flexP : Row
  defP : DefRow
deriving Repr, DecidableEq

/-- File `combiner/combine_nfl_dfs.py`, lines 86–107: draw the nine `randint`
indices in program order, shuffle the repeat-position pools, then assemble
`team_raw` with `iloc`.  Every pool here is a qualified pool. -/
def team (combo : List Row) (dk_def : List DefRow) (e : Entropy) : Except PyErr Team := do
  let qbrng ← randint 0 (((qb combo).length : Int) - 1) e.qbr
  let rbrng ← randint 0 (((rb combo).length : Int) - 1) e.rbr
  let rbrng2 ← randint 0 (((rb combo).length : Int) - 1) e.rbr2
  let wrrng ← randint 0 (((wr combo).length : Int) - 1) e.wrr
  let wrrng2 ← randint 0 (((wr combo).length : Int) - 1) e.wrr2
  let wrrng3 ← randint 0 (((wr combo).length : Int) - 1) e.wrr3
  let terng ← randint 0 (((te combo).length : Int) - 1) e.ter
  let flexrng ← randint 0 (((flex combo).length : Int) - 1) e.flexr
  let defenserng ← randint 0 (((defense dk_def).length : Int) - 1) e.defr
  let rb1 := sampleFrac1 e.rbp1 (rb combo)
  let rb2 := sampleFrac1 e.rbp2 (rb combo)
  let wr1 := sampleFrac1 e.wrp1 (wr combo)
  let wr2 := sampleFrac1 e.wrp2 (wr combo)
  let wr3 := sampleFrac1 e.wrp3 (wr combo)
  let qbP ← iloc (qb combo) qbrng
  let rb1P ← iloc rb1 rbrng
  let rb2P ← iloc rb2 rbrng2
  let wr1P ← iloc wr1 wrrng
  let wr2P ← iloc wr2 wrrng2
  let wr3P ← iloc wr3 wrrng3
  let teP ← iloc (te combo) terng
  let flexP ← iloc (flex combo) flexrng
  let defP ← iloc (defense dk_def) defenserng
  pure ⟨qbP, rb1P, rb2P, wr1P, wr2P, wr3P, teP, flexP, defP⟩

/-- File `lineup_generator.py`, lines 17–38: the same assembly, but every pool is
a RAW positional pool (`qb_raw`, `rb_raw`, …) and the defense is drawn from
the unfiltered `dk_def`. -/
def lineup (combo : List Row) (dk_def : List DefRow) (e : Entropy) : Except PyErr Team := do
  let qbrng ← randint 0 (((qb_raw combo).length : Int) - 1) e.qbr
  let rbrng ← randint 0 (((rb_raw combo).length : Int) - 1) e.rbr
  let rbrng2 ← randint 0 (((rb_raw combo).length : Int) - 1) e.rbr2
  let wrrng ← randint 0 (((wr_raw combo).length : Int) - 1) e.wrr
  let wrrng2 ← randint 0 (((wr_raw combo).length : Int) - 1) e.wrr2
  let wrrng3 ← randint 0 (((wr_raw combo).length : Int) - 1) e.wrr3
  let terng ← randint 0 (((te_raw combo).length : Int) - 1) e.ter
  let flexrng ← randint 0 (((flex_raw combo).length : Int) - 1) e.flexr
  let defenserng ← randint 0 ((dk_def.length : Int) - 1) e.defr
  let rb1_raw := sampleFrac1 e.rbp1 (rb_raw combo)
  let rb2_raw := sampleFrac1 e.rbp2 (rb_raw combo)
  let wr1_raw := sampleFrac1 e.wrp1 (wr_raw combo)
  let wr2_raw := sampleFrac1 e.wrp2 (wr_raw combo)
  let wr3_raw := sampleFrac1 e.wrp3 (wr_raw combo)
  let qbP ← iloc (qb_raw combo) qbrng
  let rb1P ← iloc rb1_raw rbrng
  let rb2P ← iloc rb2_raw rbrng2
  let wr1P ← iloc wr1_raw wrrng
  let wr2P ← iloc wr2_raw wrrng2
  let wr3P ← iloc wr3_raw wrrng3
  let teP ← iloc (te_raw combo) terng
  let flexP ← iloc (flex_raw combo) flexrng
  let defP ← iloc dk_def defenserng
  pure ⟨qbP, rb1P, rb2P, wr1P, wr2P, wr3P, teP, flexP, defP⟩

/-- The random state of the two-RB fragment: the seeds of `rbrng`/`rbrng2`
and the permutations of the two `rb.sample(frac=1)` calls. -/
structure EntropyRB where
  rbr : Nat
  rbr2 : Nat
  rbp1 : List Nat
  rbp2 : List Nat
deriving Repr, DecidableEq

/-- The RB fragment of the combiner's assembly ("requesting 2 RB slots"):
`rbrng`/`rbrng2` draws, the two `rb.sample(frac=1)` shuffles, and the two
`iloc` selections. -/
def drawRBs (combo : List Row) (e : EntropyRB) : Except PyErr (Row × Row) := do
  let rbrng ← randint 0 (((rb combo).length : Int) - 1) e.rbr
  let rbrng2 ← randint 0 (((rb combo).length : Int) - 1) e.rbr2
  let rb1 := sampleFrac1 e.rbp1 (rb combo)
  let rb2 := sampleFrac1 e.rbp2 (rb combo)
  let rb1P ← iloc rb1 rbrng
  let rb2P ← iloc rb2 rbrng2
  pure (rb1P, rb2P)

/-- The two ambient tables the script derives everything from. -/
structure Tables where
  combo : List Row
  dk_def : List DefRow
deriving Repr, DecidableEq

/-- Threaded boolean-mask selection `t[mask]`: returns the fresh filtered
frame together with the operand frame as it stands after the call (pandas
boolean indexing allocates a new frame and does not write to its input). -/
def dfFilter {α : Type} (t : List α) (p : α → Bool) : List α × List α := (t.filter p, t)

/-- Threaded label-carrying selection from the merged frame (used where a
mask from `combo` is aligned with a sub-frame by row label). -/
def dfFilterIdx (t : List Row) (p : Nat × Row → Bool) : List (Nat × Row) × List Row :=
  ((enumRows 0 t).filter p, t)

/-- Threaded `t[col].quantile(q)`: a scalar read of one column. -/
def dfQuantile {α : Type} (t : List α) (q : Rat) (f : α → Rat) : Option Rat × List α :=
  (quantile q (t.map f), t)

/-- Threaded read of the mask `combo['VBD'] > 2` from the merged frame. -/
def dfVbdMask (t : List Row) : (Nat → Bool) × List Row :=
  (fun i => decide ((2 : Rat) < (t.getD i default).VBD), t)

/-- Threaded `t.sample(frac=1)`: a fresh shuffled copy. -/
def dfSample {α : Type} (t : List α) (p : List Nat) : List α × List α := (sampleFrac1 p t, t)

/-- Threaded `t.iloc[k]`: a scalar row read. -/
def dfIloc {α : Type} [Inhabited α] (t : List α) (k : Int) : Except PyErr α × List α :=
  (iloc t k, t)

/-- Lines 47–107 of `combiner/combine_nfl_dfs.py` transcribed in program
order, with the ambient tables threaded through every data-frame operation
so that any mutation of `combo` or `dk_def` would surface in the returned
final table state. -/
def runScript (t : Tables) (e : Entropy) : (Except PyErr Team) × Tables :=
  let (qbRawF, c1) := dfFilter t.combo (fun r => r.FantPos == "QB")
  let (wrIdx, c2) := dfFilterIdx c1 (fun p => p.2.FantPos == "WR")
  let wrRawF := wrIdx.map (fun p => p.2)
  let (rbRawF, c3) := dfFilter c2 (fun r => r.FantPos == "RB")
  let (teRawF, c4) := dfFilter c3 (fun r => r.FantPos == "TE")
  let (flexRawF, c5) := dfFilter c4
    (fun r => r.FantPos == "RB" || r.FantPos == "WR" || r.FantPos == "TE")
  let (wrT, wrRaw1) := dfQuantile wrRawF (mkRat 3 4) (fun r => r.Tgt)
  let (vbdMask, c6) := dfVbdMask c5
  let (wrFIdx, _wrIdx1) := dfFilter wrIdx
    (fun p => ratGeOpt p.2.Tgt wrT && vbdMask p.1)
  let wrF := wrFIdx.map (fun p => p.2)
  let (rbT, rbRaw1) := dfQuantile rbRawF (mkRat 3 4) (fun r => r.Att)
  let (rbF, _rbRaw2) := dfFilter rbRaw1
    (fun r => ratGeOpt r.Att rbT && decide (mkRat 3 2 < r.VBD))
  let (qbF, _qbRaw1) := dfFilter qbRawF
    (fun r => (cmp_per r).gtR (mkRat 3 5) && (pypa r).gtR 5 && decide ((2 : Rat) < r.VBD))
  let (teT, _wrRaw2) := dfQuantile wrRaw1 (mkRat 3 4) (fun r => r.Tgt)
  let (teF, _teRaw1) := dfFilter teRawF
    (fun r => ratGeOpt r.Tgt teT && decide ((2 : Rat) < r.VBD))
  let (flexT, flexRaw1) := dfQuantile flexRawF (mkRat 3 4) (fun r => r.Tgt)
  let (flexA, flexRaw2) := dfQuantile flexRaw1 (mkRat 3 4) (fun r => r.Att)
  let (flexF, _flexRaw3) := dfFilter flexRaw2
    (fun r => (ratGeOpt r.Tgt flexT || ratGeOpt r.Att flexA) && decide ((2 : Rat) < r.VBD))
  let (dT, d1) := dfQuantile t.dk_def (mkRat 1 4) (fun r => r.AvgPointsPerGame)
  let (defF, d2) := dfFilter d1 (fun r => ratGeOpt r.AvgPointsPerGame dT)
  let rngs : Except PyErr (Int × Int × Int × Int × Int × Int × Int × Int × Int) := do
    let qbrng ← randint 0 ((qbF.length : Int) - 1) e.qbr
    let rbrng ← randint 0 ((rbF.length : Int) - 1) e.rbr
    let rbrng2 ← randint 0 ((rbF.length : Int) - 1) e.rbr2
    let wrrng ← randint 0 ((wrF.length : Int) - 1) e.wrr
    let wrrng2 ← randint 0 ((wrF.length : Int) - 1) e.wrr2
    let wrrng3 ← randint 0 ((wrF.length : Int) - 1) e.wrr3
    let terng ← randint 0 ((teF.length : Int) - 1) e.ter
    let flexrng ← randint 0 ((flexF.length : Int) - 1) e.flexr
    let defenserng ← randint 0 ((defF.length : Int) - 1) e.defr
    pure (qbrng, rbrng, rbrng2, wrrng, wrrng2, wrrng3, terng, flexrng, defenserng)
  match rngs with
  | .error err => (.error err, ⟨c6, d2⟩)
  | .ok (qbrng, rbrng, rbrng2, wrrng, wrrng2, wrrng3, terng, flexrng, defenserng) =>
    let (rb1, rbF1) := dfSample rbF e.rbp1
    let (rb2, _rbF2) := dfSample rbF1 e.rbp2
    let (wr1, wrF1) := dfSample wrF e.wrp1
    let (wr2, wrF2) := dfSample wrF1 e.wrp2
    let (wr3, _wrF3) := dfSample wrF2 e.wrp3
    let (qbP, _) := dfIloc qbF qbrng
    let (rb1P, _) := dfIloc rb1 rbrng
    let (rb2P, _) := dfIloc rb2 rbrng2
    let (wr1P, _) := dfIloc wr1 wrrng
    let (wr2P, _) := dfIloc wr2 wrrng2
    let (wr3P, _) := dfIloc wr3 wrrng3
    let (teP, _) := dfIloc teF terng
    let (flexP, _) := dfIloc flexF flexrng
    let (defP, _) := dfIloc defF defenserng
    let teamE : Except PyErr Team := do
      let a ← qbP
      let b ← rb1P
      let c ← rb2P
      let d ← wr1P
      let f ← wr2P
      let g ← wr3P
      let h ← teP
      let fl ← flexP
      let df ← defP
      pure ⟨a, b, c, d, f, g, h, fl, df⟩
    (teamE, ⟨c6, d2⟩)


/-- Decidable equality of script outcomes, used to evaluate the generators
on concrete inputs. -/
instance {ε α : Type} [DecidableEq ε] [DecidableEq α] : DecidableEq (Except ε α) := fun x y =>
  match x, y with
  | .ok a, .ok b =>
    if h : a = b then .isTrue (by rw [h]) else .isFalse (fun hc => h (Except.ok.inj hc))
  | .error a, .error b =>
    if h : a = b then .isTrue (by rw [h]) else .isFalse (fun hc => h (Except.error.inj hc))
  | .ok _, .error _ => .isFalse (fun hc => Except.noConfusion hc)
  | .error _, .ok _ => .isFalse (fun hc => Except.noConfusion hc)

/-- Predicate `isPre pat s`: the characters `pat` start the list `s`. -/
def isPre : List Char → List Char → Bool
  | [], _ => true
  | _ :: _, [] => false
  | a :: as, b :: bs => a == b && isPre as bs

/-- Predicate `subOcc pat s`: the characters `pat` occur contiguously inside `s`. -/
def subOcc (pat : List Char) : List Char → Bool
  | [] => pat.isEmpty
  | c :: cs => isPre pat (c :: cs) || subOcc pat cs

/-- Does the error name the given slot anywhere in its message? -/
def mentionsSlot (e : PyErr) (slot : String) : Bool :=
  match e with
  | .valueError m => subOcc slot.data m.data
  | .indexError m => subOcc slot.data m.data

/-- Concrete fixture: a pool with exactly one qualifying player per slot
(QB 70/100 for 800 yards, VBD 3; RB with 10 attempts, VBD 2; WR and TE with
10 targets, VBD 3), plus one DST row. -/
def rowQ1 : Row := ⟨"Q1", "QB", 5000, 3, 0, 0, 70, 100, 800⟩

def rowR1 : Row := ⟨"R1", "RB", 5000, 2, 0, 10, 0, 0, 0⟩

def rowW1 : Row := ⟨"W1", "WR", 5000, 3, 10, 0, 0, 0, 0⟩

def rowT1 : Row := ⟨"T1", "TE", 5000, 3, 10, 0, 0, 0, 0⟩

def defD1 : DefRow := ⟨"D1", 10⟩

def comboA : List Row := [rowQ1, rowR1, rowW1, rowT1]

def dkA : List DefRow := [defD1]

/-- Zero seeds and identity shuffles for the singleton pools. -/
def e0 : Entropy := ⟨0, 0, 0, 0, 0, 0, 0, 0, 0, [0], [0], [0], [0], [0]⟩

/-- The team the combiner assembles from `comboA`/`dkA` under `e0`: the lone
RB occupies both RB slots, the lone WR occupies all three WR slots and FLEX. -/
def teamA : Team := ⟨rowQ1, rowR1, rowR1, rowW1, rowW1, rowW1, rowT1, rowW1, defD1⟩

/-- The C6 scenario: RB pool Alice (Att 20, VBD 2), Bob (Att 5, VBD 0.5),
Cara (Att 22, VBD 3). -/
def rowAlice : Row := ⟨"Alice", "RB", 5000, 2, 0, 20, 0, 0, 0⟩

def rowBob : Row := ⟨"Bob", "RB", 5000, mkRat 1 2, 0, 5, 0, 0, 0⟩

def rowCara : Row := ⟨"Cara", "RB", 5000, 3, 0, 22, 0, 0, 0⟩

def comboC6 : List Row := [rowAlice, rowBob, rowCara]

def e0RB : EntropyRB := ⟨0, 0, [0], [0]⟩

/-- A QB row with `Pass_Att = 0` but positive completions and yards. -/
def rowQBz : Row := ⟨"Z", "QB", 5000, 3, 0, 0, 1, 0, 6⟩

def comboZ : List Row := [rowQBz]

/-- A second `Pass_Att = 0` QB row (positive completions/yards, VBD 2.5). -/
def rowQBz2 : Row := ⟨"Z2", "QB", 5000, mkRat 5 2, 0, 0, 2, 0, 7⟩

def comboZ2 : List Row := [rowQBz2]

/-- A QB who fails qualification (5.0 yards per attempt is not > 5, VBD 0). -/
def rowQB0 : Row := ⟨"Q0", "QB", 5000, 0, 0, 0, 9, 10, 50⟩

def comboB : List Row := [rowQB0, rowR1, rowW1, rowT1]

/-- One WR (10 targets) and one TE (10 targets, VBD 3). -/
def comboW7 : List Row := [rowW1, rowT1]


theorem qadd_eq (a b : Rat) : qadd a b = a + b := by
  have ha : ((a.den : Rat)) ≠ 0 := by exact_mod_cast a.den_nz
  have hb : ((b.den : Rat)) ≠ 0 := by exact_mod_cast b.den_nz
  have key : ((a.num : Rat) / a.den + (b.num : Rat) / b.den)
      = ((a.num : Rat) * b.den + (a.den : Rat) * b.num) / ((a.den : Rat) * b.den) :=
    div_add_div _ _ ha hb
  rw [Rat.num_div_den, Rat.num_div_den] at key
  rw [qadd, Rat.mkRat_eq_div, key]
  push_cast
  ring_nf

theorem qsub_eq (a b : Rat) : qsub a b = a - b := by
  have ha : ((a.den : Rat)) ≠ 0 := by exact_mod_cast a.den_nz
  have hb : ((b.den : Rat)) ≠ 0 := by exact_mod_cast b.den_nz
  have key : ((a.num : Rat) / a.den - (b.num : Rat) / b.den)
      = ((a.num : Rat) * b.den - (a.den : Rat) * b.num) / ((a.den : Rat) * b.den) :=
    div_sub_div _ _ ha hb
  rw [Rat.num_div_den, Rat.num_div_den] at key
  rw [qsub, Rat.mkRat_eq_div, key]
  push_cast
  ring_nf

theorem qmul_eq (a b : Rat) : qmul a b = a * b := by
  have key : ((a.num : Rat) / a.den * ((b.num : Rat) / b.den))
      = ((a.num : Rat) * b.num) / ((a.den : Rat) * b.den) := div_mul_div_comm _ _ _ _
  rw [Rat.num_div_den, Rat.num_div_den] at key
  rw [qmul, Rat.mkRat_eq_div, key]
  push_cast
  ring_nf

theorem qdiv_eq (a b : Rat) : qdiv a b = a / b := by
  have key : a / b = (a.num : Rat) * b.den / ((a.den : Rat) * b.num) := by
    conv_lhs => rw [← Rat.num_div_den a, ← Rat.num_div_den b]
    rw [div_div_eq_mul_div, div_mul_eq_mul_div, div_div]
  rw [qdiv, Rat.divInt_eq_div, key]
  push_cast
  ring_nf

theorem except_bind_ok {α β : Type} {e : Except PyErr α} {f : α → Except PyErr β} {b : β} :
    (e >>= f) = .ok b ↔ ∃ a, e = .ok a ∧ f a = .ok b := by
  cases e with
  | error err => simp [Bind.bind, Except.bind]
  | ok a => simp [Bind.bind, Except.bind]

theorem iloc_ok_mem {α : Type} [Inhabited α] {l : List α} {k : Int} {a : α}
    (h : iloc l k = .ok a) : a ∈ l := by
  simp only [iloc] at h
  revert h
  generalize (if k < 0 then k + (l.length : Int) else k) = j
  intro h
  split at h
  · next hcond =>
    obtain ⟨h0, hlt⟩ := hcond
    have hget : l.get? j.toNat = some (l.get ⟨j.toNat, hlt⟩) := List.get?_eq_get hlt
    have hgd : l.getD j.toNat default = l.get ⟨j.toNat, hlt⟩ := by
      rw [List.getD_eq_get?, hget]
      rfl
    have ha : l.getD j.toNat default = a := by simpa using h
    rw [← ha, hgd]
    exact List.get_mem l j.toNat hlt
  · exact absurd h (by simp)

theorem mem_sampleFrac1 {α : Type} {p : List Nat} {l : List α} {a : α}
    (h : a ∈ sampleFrac1 p l) : a ∈ l := by
  rw [sampleFrac1, List.mem_filterMap] at h
  obtain ⟨i, _, hget⟩ := h
  exact List.get?_mem hget

theorem sampleFrac1_length {α : Type} {p : List Nat} {l : List α}
    (h : IsShuffle p l) : (sampleFrac1 p l).length = l.length := by
  have hmem : ∀ i ∈ p, i < l.length := by
    intro i hi
    have := h.mem_iff.mp hi
    exact List.mem_range.mp this
  have : (sampleFrac1 p l).length = p.length := by
    clear h
    induction p with
    | nil => rfl
    | cons x xs ih =>
      have hx : x < l.length := hmem x (by simp)
      have hxs : ∀ i ∈ xs, i < l.length := fun i hi => hmem i (by simp [hi])
      simp only [sampleFrac1, List.filterMap_cons] at *
      rw [List.get?_eq_get hx]
      simpa using ih hxs
  rw [this, h.length_eq, List.length_range]

theorem randint_ok {n : Nat} (hn : 0 < n) (r : Nat) :
    randint 0 ((n : Int) - 1) r = .ok ((r % n : Nat) : Int) := by
  rw [randint]
  have h1 : ¬ ((n : Int) - 1 < 0) := by omega
  rw [if_neg h1]
  congr 1
  have h2 : ((n : Int) - 1 - 0 + 1) = (n : Int) := by ring
  rw [h2]
  simp

theorem iloc_nat_ok {α : Type} [Inhabited α] {l : List α} {k : Nat}
    (h : k < l.length) : iloc l (k : Int) = .ok (l.getD k default) := by
  simp only [iloc]
  have h1 : ¬ ((k : Int) < 0) := by omega
  rw [if_neg h1]
  rw [if_pos ⟨by omega, by simpa using h⟩]
  simp

theorem enumRows_mem {l : List Row} {k i : Nat} {r : Row}
    (h : (i, r) ∈ enumRows k l) : k ≤ i ∧ l.getD (i - k) default = r := by
  induction l generalizing k with
  | nil => simp [enumRows] at h
  | cons x xs ih =>
    simp only [enumRows, List.mem_cons] at h
    rcases h with h | h
    · rw [Prod.mk.injEq] at h
      obtain ⟨hi, hr⟩ := h
      subst hi
      subst hr
      simp
    · obtain ⟨hk, hget⟩ := ih h
      constructor
      · omega
      · have : i - k = (i - (k + 1)) + 1 := by omega
        rw [this]
        simpa using hget

theorem enumRows_lookup {combo : List Row} {i : Nat} {r : Row}
    (h : (i, r) ∈ enumRows 0 combo) : combo.getD i default = r := by
  have := enumRows_mem h
  simpa using this.2

theorem map_snd_filter_enumRows (P : Row → Bool) :
    ∀ (l : List Row) (k : Nat),
      ((enumRows k l).filter (fun p => P p.2)).map (fun p => p.2) = l.filter P := by
  intro l
  induction l with
  | nil => intro k; rfl
  | cons x xs ih =>
    intro k
    simp only [enumRows, List.filter_cons]
    by_cases hx : P x
    · simp only [hx, if_pos]
      simp [ih (k + 1), List.filter_cons, hx]
    · simp only [hx]
      simp [ih (k + 1), List.filter_cons, hx]

theorem wr_eq_wr_perPool (combo : List Row) : wr combo = wr_perPool combo := by
  have step1 : (wr_rawIdx combo).filter
        (fun p => ratGeOpt p.2.Tgt (wr_targets combo) && comboVbdMask combo p.1)
      = (wr_rawIdx combo).filter
        (fun p => ratGeOpt p.2.Tgt (wr_targets combo) && decide ((2 : Rat) < p.2.VBD)) := by
    apply List.filter_congr
    intro p hp
    have hmem : p ∈ enumRows 0 combo := List.mem_of_mem_filter hp
    have hlook : combo.getD p.1 default = p.2 := by
      have : (p.1, p.2) ∈ enumRows 0 combo := by simpa using hmem
      exact enumRows_lookup this
    simp only [comboVbdMask]
    rw [hlook]
  rw [wr, step1, wr_rawIdx, List.filter_filter, wr_perPool, wr_raw, List.filter_filter]
  exact map_snd_filter_enumRows
    (fun r => ratGeOpt r.Tgt (wr_targets combo) && decide ((2 : Rat) < r.VBD) && (r.FantPos == "WR"))
    combo 0

theorem ok_bind {α β : Type} (a : α) (f : α → Except PyErr β) :
    (Except.ok a : Except PyErr α) >>= f = f a := rfl

theorem bind_randint_err {α : Type} {lo hi : Int} {r : Nat} {f : Int → Except PyErr α}
    (hf : ∀ k, f k = .error (.valueError "empty range for randrange")) :
    (randint lo hi r >>= f) = .error (.valueError "empty range for randrange") := by
  rw [randint]
  split
  · rfl
  · exact hf _

/-- C9: the WR qualification filter as written — masking `wr_raw` by
`(wr_raw['Tgt'] >= wr_targets) & (combo['VBD'] > 2)` with the `VBD` mask
taken from the full merged frame and aligned by row label — selects exactly
the rows selected by the per-pool form `wr_raw['VBD'] > 2` used for RB and
TE. -/
theorem wr_asWritten_eq_perPool (combo : List Row) : wr combo = wr_perPool combo :=
  wr_eq_wr_perPool combo

/-- C1 (code bug): the generated team can bind the same player to both RB
slots.  On a pool whose qualified RB pool is the singleton `[rowR1]`, both
`rb.sample(frac=1)` copies contain only `rowR1`, so `team_raw` places the
same player in RB1 and RB2 — the two independent shuffles do not enforce
the skill-slot distinctness the comment (and spec) promise. -/
theorem team_duplicates_rb_slots :
    team comboA dkA e0 = .ok teamA ∧ teamA.rb1P.Name = teamA.rb2P.Name := by
  constructor
  · decide
  · decide

/-- C3 (amended): with an empty DST pool the script aborts with the raw
`ValueError` that `random.randint(0, -1)` raises (the same exception any
other empty pool produces earlier in the range block); no team value is
ever produced, but the error is not a named pool error and does not name
the slot. -/
theorem team_empty_dkdef_raises_valueError (combo : List Row) (e : Entropy) :
    team combo [] e = .error (.valueError "empty range for randrange") := by
  simp only [team]
  apply bind_randint_err; intro k1
  apply bind_randint_err; intro k2
  apply bind_randint_err; intro k3
  apply bind_randint_err; intro k4
  apply bind_randint_err; intro k5
  apply bind_randint_err; intro k6
  apply bind_randint_err; intro k7
  apply bind_randint_err; intro k8
  rfl

/-- C3 (counterexample): on the concrete pool `comboA` with an empty DST
table, generation does not fail with an `EmptyPoolError`/`InsufficientPlayersError`
naming "DST"; it dies with the anonymous `ValueError` of `randint`, whose
message does not mention the slot. -/
theorem team_empty_dkdef_not_named_error :
    team comboA [] e0 = .error (.valueError "empty range for randrange") ∧
      mentionsSlot (.valueError "empty range for randrange") "DST" = false := by
  constructor
  · decide
  · decide

theorem mkRat_three_five : mkRat 3 5 = (3 : Rat) / 5 := by
  rw [Rat.mkRat_eq_div]
  norm_num

theorem gtR_pdiv_ne {a b : Rat} (hb : b ≠ 0) (c : Rat) :
    (pdiv a b).gtR c = decide (c < a / b) := by
  rw [pdiv, if_pos hb, PFloat.gtR, qdiv_eq]

theorem gtR_pdiv_zero (a c : Rat) : (pdiv a 0).gtR c = decide (0 < a) := by
  rw [pdiv, if_neg (by simp)]
  rcases lt_trichotomy 0 a with h | h | h
  · rw [if_pos h, PFloat.gtR]
    simp [h]
  · rw [if_neg (by rw [← h]; exact lt_irrefl 0), if_neg (by rw [← h]; exact lt_irrefl 0),
      PFloat.gtR]
    simp [← h]
  · rw [if_neg (by exact not_lt_of_gt h), if_pos h, PFloat.gtR]
    simp [not_lt_of_gt h]

/-- C4 (amended): for every merged-pool record with a nonzero `Pass_Att`,
membership in the QB qualified pool is equivalent to: the row is a QB, its
completion rate exceeds 0.6, its yards per attempt exceed 5, and its VBD
exceeds 2 — with all rates computed by exact division.  (For `Pass_Att = 0`
the code instead applies IEEE semantics; see the C5 theorems.) -/
theorem qb_mem_iff_of_att_ne_zero (combo : List Row) (r : Row)
    (hr : r ∈ combo) (hatt : r.Pass_Att ≠ 0) :
    r ∈ qb combo ↔
      r.FantPos = "QB" ∧ (3 : Rat) / 5 < r.Pass_Cmp / r.Pass_Att ∧
        (5 : Rat) < r.Pass_Yds / r.Pass_Att ∧ (2 : Rat) < r.VBD := by
  have hc : (cmp_per r).gtR (mkRat 3 5) = decide ((3 : Rat) / 5 < r.Pass_Cmp / r.Pass_Att) := by
    rw [cmp_per, gtR_pdiv_ne hatt, mkRat_three_five]
  have hy : (pypa r).gtR 5 = decide ((5 : Rat) < r.Pass_Yds / r.Pass_Att) := by
    rw [pypa, gtR_pdiv_ne hatt]
  simp only [qb, qb_raw, List.mem_filter, Bool.and_eq_true, beq_iff_eq, hc, hy,
    decide_eq_true_eq]
  constructor
  · rintro ⟨⟨-, hpos⟩, ⟨h1, h2⟩, h3⟩
    exact ⟨hpos, h1, h2, h3⟩
  · rintro ⟨hpos, h1, h2, h3⟩
    exact ⟨⟨hr, hpos⟩, ⟨h1, h2⟩, h3⟩

/-- C4 (witness): the characterization applied to the qualifying QB of the
concrete pool `comboA`. -/
theorem qb_mem_iff_of_att_ne_zero_witness :
    rowQ1 ∈ comboA ∧ rowQ1.Pass_Att ≠ 0 ∧
      (rowQ1 ∈ qb comboA ↔
        rowQ1.FantPos = "QB" ∧ (3 : Rat) / 5 < rowQ1.Pass_Cmp / rowQ1.Pass_Att ∧
          (5 : Rat) < rowQ1.Pass_Yds / rowQ1.Pass_Att ∧ (2 : Rat) < rowQ1.VBD) :=
  ⟨by decide, by decide, qb_mem_iff_of_att_ne_zero comboA rowQ1 (by decide) (by decide)⟩

/-- C4 (counterexample): the claimed equivalence fails on a `Pass_Att = 0`
record: `rowQBz` (1 completion, 6 yards, 0 attempts, VBD 3) is admitted to
the QB qualified pool although its completion rate is not greater than 0.6
in the claim's sense (the rate is undefined, hence fails the threshold). -/
theorem qb_mem_iff_fails_at_zero_att :
    rowQBz ∈ qb comboZ ∧ ¬ ((3 : Rat) / 5 < rowQBz.Pass_Cmp / rowQBz.Pass_Att) := by
  constructor
  · decide
  · rw [show rowQBz.Pass_Att = 0 from rfl, show rowQBz.Pass_Cmp = 1 from rfl]
    norm_num

/-- C5 (amended): a `Pass_Att = 0` record never crashes the division (pandas
yields `inf`/`NaN`), and it is rejected when `Pass_Cmp ≤ 0` (a `NaN` rate
fails every threshold) — but when `Pass_Cmp > 0` the rate is `+inf`, which
PASSES the `> 0.6` threshold, so the record is admitted exactly when
`Pass_Cmp > 0`, `Pass_Yds > 0` and `VBD > 2`. -/
theorem qb_mem_iff_of_att_zero (combo : List Row) (r : Row)
    (hr : r ∈ combo) (hatt : r.Pass_Att = 0) :
    r ∈ qb combo ↔
      r.FantPos = "QB" ∧ 0 < r.Pass_Cmp ∧ 0 < r.Pass_Yds ∧ (2 : Rat) < r.VBD := by
  have hc : (cmp_per r).gtR (mkRat 3 5) = decide (0 < r.Pass_Cmp) := by
    rw [cmp_per, hatt, gtR_pdiv_zero]
  have hy : (pypa r).gtR 5 = decide (0 < r.Pass_Yds) := by
    rw [pypa, hatt, gtR_pdiv_zero]
  simp only [qb, qb_raw, List.mem_filter, Bool.and_eq_true, beq_iff_eq, hc, hy,
    decide_eq_true_eq]
  constructor
  · rintro ⟨⟨-, hpos⟩, ⟨h1, h2⟩, h3⟩
    exact ⟨hpos, h1, h2, h3⟩
  · rintro ⟨hpos, h1, h2, h3⟩
    exact ⟨⟨hr, hpos⟩, ⟨h1, h2⟩, h3⟩

/-- C5 (witness): the `Pass_Att = 0` characterization applied to the
concrete record `rowQBz2`. -/
theorem qb_mem_iff_of_att_zero_witness :
    rowQBz2 ∈ comboZ2 ∧ rowQBz2.Pass_Att = 0 ∧
      (rowQBz2 ∈ qb comboZ2 ↔
        rowQBz2.FantPos = "QB" ∧ 0 < rowQBz2.Pass_Cmp ∧ 0 < rowQBz2.Pass_Yds ∧
          (2 : Rat) < rowQBz2.VBD) :=
  ⟨by decide, by decide, qb_mem_iff_of_att_zero comboZ2 rowQBz2 (by decide) (by decide)⟩

/-- C5 (counterexample): `rowQBz2` has `Pass_Att = 0` yet IS admitted to the
QB qualified pool (completion rate `2/0 = +inf > 0.6`, `7/0 = +inf > 5`,
VBD `2.5 > 2`), refuting "never admitted ... regardless of the record's
other stat values". -/
theorem qb_admits_att_zero_record :
    rowQBz2.Pass_Att = 0 ∧ rowQBz2 ∈ qb comboZ2 := by
  constructor
  · decide
  · decide

/-- C6 (counterexample): on the claimed scenario (Alice Att 20 VBD 2, Bob
Att 5 VBD 0.5, Cara Att 22 VBD 3), the 75th-percentile attempts threshold is
exactly 21, and the qualified RB pool is `[Cara]` — Alice (Att 20 < 21) is
NOT qualified, so the pool does not equal `{Alice, Cara}`. -/
theorem rb_pool_excludes_alice :
    rb_attempts comboC6 = some 21 ∧ rb comboC6 = [rowCara] ∧ rowAlice ∉ rb comboC6 := by
  refine ⟨by decide, by decide, by decide⟩

/-- C6 (amended): the threshold is exactly 21, the qualified RB pool is
`[Cara]` alone, and any successful two-RB draw binds Cara to BOTH RB slots
(the draw does not error, but it cannot produce two distinct players). -/
theorem rb_two_slot_draw_yields_cara_twice (e : EntropyRB) (p : Row × Row)
    (h : drawRBs comboC6 e = .ok p) :
    rb_attempts comboC6 = some 21 ∧ rb comboC6 = [rowCara] ∧
      p.1.Name = "Cara" ∧ p.2.Name = "Cara" := by
  have hrb : rb comboC6 = [rowCara] := by decide
  simp only [drawRBs] at h
  obtain ⟨k1, -, h⟩ := except_bind_ok.mp h
  obtain ⟨k2, -, h⟩ := except_bind_ok.mp h
  obtain ⟨a, ha, h⟩ := except_bind_ok.mp h
  obtain ⟨b, hb, h⟩ := except_bind_ok.mp h
  have h2 : Except.ok (a, b) = Except.ok p := h
  obtain rfl := Except.ok.inj h2
  have ha2 : a ∈ rb comboC6 := mem_sampleFrac1 (iloc_ok_mem ha)
  have hb2 : b ∈ rb comboC6 := mem_sampleFrac1 (iloc_ok_mem hb)
  rw [hrb, List.mem_singleton] at ha2 hb2
  refine ⟨by decide, hrb, ?_, ?_⟩
  · rw [show (a, b).1 = a from rfl, ha2]
    decide
  · rw [show (a, b).2 = b from rfl, hb2]
    decide

/-- C6 (witness): the concrete zero-seed draw indeed returns (Cara, Cara). -/
theorem rb_two_slot_draw_yields_cara_twice_witness :
    rb_attempts comboC6 = some 21 ∧ rb comboC6 = [rowCara] ∧
      (rowCara, rowCara).1.Name = "Cara" ∧ (rowCara, rowCara).2.Name = "Cara" :=
  rb_two_slot_draw_yields_cara_twice e0RB (rowCara, rowCara) (by decide)

/-- C7: a record is in the TE qualified pool exactly when it is a TE row of
the merged pool whose targets reach the 75th percentile of targets over the
WR rows (not the TE rows) and whose VBD exceeds 2. -/
theorem te_mem_iff_wr_quantile (combo : List Row) (r : Row) (q : Rat)
    (hr : r ∈ combo)
    (hq : quantile (mkRat 3 4) ((wr_raw combo).map (fun w => w.Tgt)) = some q) :
    r ∈ te combo ↔ r.FantPos = "TE" ∧ q ≤ r.Tgt ∧ (2 : Rat) < r.VBD := by
  have ht : te_targets combo = some q := hq
  simp only [te, te_raw, List.mem_filter, Bool.and_eq_true, beq_iff_eq, ht, ratGeOpt,
    decide_eq_true_eq]
  constructor
  · rintro ⟨⟨-, hpos⟩, h1, h2⟩
    exact ⟨hpos, h1, h2⟩
  · rintro ⟨hpos, h1, h2⟩
    exact ⟨⟨hr, hpos⟩, h1, h2⟩

/-- C7 (witness): on a pool with one WR (10 targets) and one TE, the WR
quantile is 10 and the TE characterization holds for the TE row. -/
theorem te_mem_iff_wr_quantile_witness :
    rowT1 ∈ comboW7 ∧
      quantile (mkRat 3 4) ((wr_raw comboW7).map (fun w => w.Tgt)) = some 10 ∧
      (rowT1 ∈ te comboW7 ↔
        rowT1.FantPos = "TE" ∧ (10 : Rat) ≤ rowT1.Tgt ∧ (2 : Rat) < rowT1.VBD) :=
  ⟨by decide, by decide, te_mem_iff_wr_quantile comboW7 rowT1 10 (by decide) (by decide)⟩

/-- C2 (counterexample): `lineup_generator.py` draws every slot from the RAW
positional pools.  On `comboB` its QB slot receives `rowQB0` (5.0 yards per
attempt, VBD 0), a player who is NOT in the QB qualified pool, so the claim
"every slot's occupant belongs to the qualified pool" fails for that
generated lineup. -/
theorem lineup_draws_unqualified_qb :
    lineup comboB dkA e0 = .ok ⟨rowQB0, rowR1, rowR1, rowW1, rowW1, rowW1, rowT1, rowR1, defD1⟩ ∧
      rowQB0 ∉ qb comboB := by
  constructor
  · decide
  · decide

/-- C2 (amended): the property does hold for the combiner's generator: every
slot of any team produced by `combiner/combine_nfl_dfs.py` comes from the
corresponding qualified pool (QB, RB, WR, TE, FLEX, DST).  The
`lineup_generator.py` variant instead draws from the raw positional pools
(see the counterexample). -/
theorem team_slots_in_qualified_pools (combo : List Row) (dkd : List DefRow) (e : Entropy)
    (T : Team) (h : team combo dkd e = .ok T) :
    T.qbP ∈ qb combo ∧ T.rb1P ∈ rb combo ∧ T.rb2P ∈ rb combo ∧ T.wr1P ∈ wr combo ∧
      T.wr2P ∈ wr combo ∧ T.wr3P ∈ wr combo ∧ T.teP ∈ te combo ∧ T.flexP ∈ flex combo ∧
      T.defP ∈ defense dkd := by
  simp only [team] at h
  obtain ⟨k1, -, h⟩ := except_bind_ok.mp h
  obtain ⟨k2, -, h⟩ := except_bind_ok.mp h
  obtain ⟨k3, -, h⟩ := except_bind_ok.mp h
  obtain ⟨k4, -, h⟩ := except_bind_ok.mp h
  obtain ⟨k5, -, h⟩ := except_bind_ok.mp h
  obtain ⟨k6, -, h⟩ := except_bind_ok.mp h
  obtain ⟨k7, -, h⟩ := except_bind_ok.mp h
  obtain ⟨k8, -, h⟩ := except_bind_ok.mp h
  obtain ⟨k9, -, h⟩ := except_bind_ok.mp h
  obtain ⟨a1, ha1, h⟩ := except_bind_ok.mp h
  obtain ⟨a2, ha2, h⟩ := except_bind_ok.mp h
  obtain ⟨a3, ha3, h⟩ := except_bind_ok.mp h
  obtain ⟨a4, ha4, h⟩ := except_bind_ok.mp h
  obtain ⟨a5, ha5, h⟩ := except_bind_ok.mp h
  obtain ⟨a6, ha6, h⟩ := except_bind_ok.mp h
  obtain ⟨a7, ha7, h⟩ := except_bind_ok.mp h
  obtain ⟨a8, ha8, h⟩ := except_bind_ok.mp h
  obtain ⟨a9, ha9, h⟩ := except_bind_ok.mp h
  have h2 : Except.ok (⟨a1, a2, a3, a4, a5, a6, a7, a8, a9⟩ : Team) = Except.ok T := h
  obtain rfl := Except.ok.inj h2
  exact ⟨iloc_ok_mem ha1, mem_sampleFrac1 (iloc_ok_mem ha2), mem_sampleFrac1 (iloc_ok_mem ha3),
    mem_sampleFrac1 (iloc_ok_mem ha4), mem_sampleFrac1 (iloc_ok_mem ha5),
    mem_sampleFrac1 (iloc_ok_mem ha6), iloc_ok_mem ha7, iloc_ok_mem ha8, iloc_ok_mem ha9⟩

/-- C2 (witness): the amended membership property evaluated on the concrete
team assembled from `comboA`/`dkA` under the zero-seed entropy. -/
theorem team_slots_in_qualified_pools_witness :
    teamA.qbP ∈ qb comboA ∧ teamA.rb1P ∈ rb comboA ∧ teamA.rb2P ∈ rb comboA ∧
      teamA.wr1P ∈ wr comboA ∧ teamA.wr2P ∈ wr comboA ∧ teamA.wr3P ∈ wr comboA ∧
      teamA.teP ∈ te comboA ∧ teamA.flexP ∈ flex comboA ∧ teamA.defP ∈ defense dkA :=
  team_slots_in_qualified_pools comboA dkA e0 teamA (by decide)

/-- C8: running lines 47–107 with the ambient tables threaded through every
data-frame operation returns `combo` and `dk_def` exactly as they were:
every derived pool is a fresh value and no step mutates the input tables. -/
theorem runScript_leaves_tables_unchanged (t : Tables) (e : Entropy) :
    (runScript t e).2 = t := by
  simp only [runScript, dfFilter, dfFilterIdx, dfQuantile, dfVbdMask, dfSample, dfIloc]
  split <;> rfl

/-- C10: when every qualified pool is non-empty and the `sample(frac=1)`
draws are genuine shuffles, every positional index drawn by
`randint(0, len(pool)-1)` is in bounds for the (length-preserving) shuffled
copy it is applied to, so every `iloc` succeeds and assembly returns a team. -/
theorem team_assembly_in_bounds (combo : List Row) (dkd : List DefRow) (e : Entropy)
    (hqb : qb combo ≠ []) (hrb : rb combo ≠ []) (hwr : wr combo ≠ [])
    (hte : te combo ≠ []) (hflex : flex combo ≠ []) (hdef : defense dkd ≠ [])
    (s1 : IsShuffle e.rbp1 (rb combo)) (s2 : IsShuffle e.rbp2 (rb combo))
    (s3 : IsShuffle e.wrp1 (wr combo)) (s4 : IsShuffle e.wrp2 (wr combo))
    (s5 : IsShuffle e.wrp3 (wr combo)) :
    ∃ T, team combo dkd e = .ok T := by
  have nqb : 0 < (qb combo).length := List.length_pos.mpr hqb
  have nrb : 0 < (rb combo).length := List.length_pos.mpr hrb
  have nwr : 0 < (wr combo).length := List.length_pos.mpr hwr
  have nte : 0 < (te combo).length := List.length_pos.mpr hte
  have nflex : 0 < (flex combo).length := List.length_pos.mpr hflex
  have ndef : 0 < (defense dkd).length := List.length_pos.mpr hdef
  have L1 : (sampleFrac1 e.rbp1 (rb combo)).length = (rb combo).length := sampleFrac1_length s1
  have L2 : (sampleFrac1 e.rbp2 (rb combo)).length = (rb combo).length := sampleFrac1_length s2
  have L3 : (sampleFrac1 e.wrp1 (wr combo)).length = (wr combo).length := sampleFrac1_length s3
  have L4 : (sampleFrac1 e.wrp2 (wr combo)).length = (wr combo).length := sampleFrac1_length s4
  have L5 : (sampleFrac1 e.wrp3 (wr combo)).length = (wr combo).length := sampleFrac1_length s5
  have b1 : e.rbr % (rb combo).length < (sampleFrac1 e.rbp1 (rb combo)).length := by
    rw [L1]; exact Nat.mod_lt _ nrb
  have b2 : e.rbr2 % (rb combo).length < (sampleFrac1 e.rbp2 (rb combo)).length := by
    rw [L2]; exact Nat.mod_lt _ nrb
  have b3 : e.wrr % (wr combo).length < (sampleFrac1 e.wrp1 (wr combo)).length := by
    rw [L3]; exact Nat.mod_lt _ nwr
  have b4 : e.wrr2 % (wr combo).length < (sampleFrac1 e.wrp2 (wr combo)).length := by
    rw [L4]; exact Nat.mod_lt _ nwr
  have b5 : e.wrr3 % (wr combo).length < (sampleFrac1 e.wrp3 (wr combo)).length := by
    rw [L5]; exact Nat.mod_lt _ nwr
  simp only [team]
  rw [randint_ok nqb, randint_ok nrb, randint_ok nrb, randint_ok nwr, randint_ok nwr,
    randint_ok nwr, randint_ok nte, randint_ok nflex, randint_ok ndef]
  simp only [ok_bind]
  rw [iloc_nat_ok (Nat.mod_lt _ nqb), iloc_nat_ok b1, iloc_nat_ok b2, iloc_nat_ok b3,
    iloc_nat_ok b4, iloc_nat_ok b5, iloc_nat_ok (Nat.mod_lt _ nte),
    iloc_nat_ok (Nat.mod_lt _ nflex), iloc_nat_ok (Nat.mod_lt _ ndef)]
  simp only [ok_bind]
  exact ⟨_, rfl⟩

/-- C10 (witness): assembly succeeds on the concrete non-empty pools of
`comboA`/`dkA` with the identity shuffles of the singleton pools. -/
theorem team_assembly_in_bounds_witness : ∃ T, team comboA dkA e0 = .ok T :=
  team_assembly_in_bounds comboA dkA e0 (by decide) (by decide) (by decide) (by decide)
    (by decide) (by decide)
    (by simp only [IsShuffle]
        rw [show (rb comboA).length = 1 from rfl, show List.range 1 = [0] from rfl]
        exact List.Perm.refl _)
    (by simp only [IsShuffle]
        rw [show (rb comboA).length = 1 from rfl, show List.range 1 = [0] from rfl]
        exact List.Perm.refl _)
    (by simp only [IsShuffle]
        rw [show (wr comboA).length = 1 from rfl, show List.range 1 = [0] from rfl]
        exact List.Perm.refl _)
    (by simp only [IsShuffle]
        rw [show (wr comboA).length = 1 from rfl, show List.range 1 = [0] from rfl]
        exact List.Perm.refl _)
    (by simp only [IsShuffle]
        rw [show (wr comboA).length = 1 from rfl, show List.range 1 = [0] from rfl]
        exact List.Perm.refl _)
